import Mathlib

/-!
Verification of the overlay metadata engine in `src/fs/fake.c` (the
"fakefs" filesystem): a shallow embedding of the metadata store (paths,
stats) and of the user-facing verbs, with the passthrough ("realfs")
host layer abstracted as an explicit outcome parameter wherever
`fake.c` merely consumes its result, and modelled concretely for the
host-file reads and writes that `fake.c` performs itself (the symlink
file creation via `openat(O_CREAT|O_EXCL)` and the regular-file
readlink fallback).
-/

set_option autoImplicit false

namespace FakeFS

/-! ### Constants

File-type bits from `<sys/stat.h>` and the foreign-OS error codes from
`kernel/errno.h` used by `fake.c`. -/

def S_IFMT : Nat := 0o170000
def S_IFREG : Nat := 0o100000
def S_IFDIR : Nat := 0o040000
def S_IFLNK : Nat := 0o120000
def S_IFBLK : Nat := 0o060000
def S_IFCHR : Nat := 0o020000

def S_ISBLK (m : Nat) : Prop := m &&& S_IFMT = S_IFBLK
def S_ISCHR (m : Nat) : Prop := m &&& S_IFMT = S_IFCHR
def S_ISLNK (m : Nat) : Prop := m &&& S_IFMT = S_IFLNK

instance (m : Nat) : Decidable (S_ISBLK m) := by unfold S_ISBLK; infer_instance
instance (m : Nat) : Decidable (S_ISCHR m) := by unfold S_ISCHR; infer_instance
instance (m : Nat) : Decidable (S_ISLNK m) := by unfold S_ISLNK; infer_instance

def _ENOENT : Int := -2
def _EEXIST : Int := -17
def _EINVAL : Int := -22

/-- Bitwise complement on a 32-bit `dword_t`, as `~x` behaves in the C
source (`attr.mode & ~S_IFMT`). -/
def dword_not (x : Nat) : Nat := 4294967295 ^^^ x

/-! ### Data model

Paths are opaque byte strings (bound as blobs); a host regular file is
its byte contents. `struct ish_stat` is the 16-byte stat blob. -/

abbrev Path := List Nat

/-- `struct ish_stat` from fake.c: the overlay-recorded attributes. -/
structure IshStat where
  mode : Nat
  uid : Nat
  gid : Nat
  rdev : Nat
deriving DecidableEq

/-- The two relations of meta.db plus the AUTOINCREMENT cursor of the
`stats` table (SQLite rowids are assigned increasing from it and never
reused). -/
structure MetaStore where
  paths : List (Path × Nat)
  stats : List (Nat × IshStat)
  nextInode : Nat
deriving DecidableEq

/-- The host data tree as far as fake.c itself touches it: the regular
files it creates and reads back (symlink storage). -/
abbrev HostFS := List (Path × List Nat)

/-- First-match association-list lookup (the row a `where key = ?`
query returns). -/
def lookupKV {α β : Type} [DecidableEq α] : List (α × β) → α → Option β
  | [], _ => none
  | e :: rest, a => if a = e.1 then some e.2 else lookupKV rest a

/-! ### Metadata-store primitives (fake.c lines 75-140)

A `none`/`Option` result models the `die()` path: any SQLite outcome
other than ok/row/done, or an explicit `die` call, aborts the process
mid-transaction. -/

/-- `select inode from paths where path = ?`; zero signals "not
present". -/
def path_get_inode (ms : MetaStore) (p : Path) : Nat :=
  (lookupKV ms.paths p).getD 0

/-- `select inode, stat from stats natural join paths where path = ?`. -/
def path_read_stat (ms : MetaStore) (p : Path) : Option (Nat × IshStat) :=
  match lookupKV ms.paths p with
  | none => none
  | some ino =>
    match lookupKV ms.stats ino with
    | none => none
    | some s => some (ino, s)

/-- `insert into stats (stat) values (?)` followed by
`insert into paths values (?, last_insert_rowid())`; the second insert
hits the paths primary-key constraint (fatal) when the path already has
a row. -/
def path_create (ms : MetaStore) (p : Path) (s : IshStat) : Option MetaStore :=
  match lookupKV ms.paths p with
  | some _ => none
  | none => some
      { paths := (p, ms.nextInode) :: ms.paths
        stats := (ms.nextInode, s) :: ms.stats
        nextInode := ms.nextInode + 1 }

/-- `select stat from stats where inode = ?`; a missing row is the
fatal `die("missing inode")`. -/
def inode_read_stat (ms : MetaStore) (i : Nat) : Option IshStat :=
  lookupKV ms.stats i

/-- `update stats set stat = ? where inode = ?`. -/
def inode_write_stat (ms : MetaStore) (i : Nat) (s : IshStat) : MetaStore :=
  { ms with stats := ms.stats.map fun e => if e.1 = i then (e.1, s) else e }

/-- `path_link`: read src's inode (`die` when zero), then
`insert into paths (path, inode) values (?, ?)` (primary-key conflict
on an existing dst row is fatal). -/
def path_link (ms : MetaStore) (src dst : Path) : Option MetaStore :=
  let ino := path_get_inode ms src
  if ino = 0 then none
  else if (lookupKV ms.paths dst).isSome then none
  else some { ms with paths := (dst, ino) :: ms.paths }

/-- `delete from paths where path = ?`. -/
def path_unlink (ms : MetaStore) (p : Path) : MetaStore :=
  { ms with paths := ms.paths.filter fun e => ¬ e.1 = p }

/-- `update or replace paths set path = ? [dst] where path = ? [src]`:
no-op when src is absent; otherwise the src row's key becomes dst and
any existing dst row is replaced. -/
def path_rename (ms : MetaStore) (src dst : Path) : MetaStore :=
  match lookupKV ms.paths src with
  | none => ms
  | some ino =>
    { ms with paths := (dst, ino) :: ms.paths.filter fun e => ¬ e.1 = src ∧ ¬ e.1 = dst }

/-! ### Overlay verbs (fake.c lines 142-394)

Each verb whose host side goes through the passthrough layer takes the
host call's outcome (`hostErr : Int`, negative = failure) as an
explicit parameter, exactly as fake.c consumes it. -/

/-- Modelled from the spec: the passthrough layer's `open`
(`realfs.open`, not part of src/fs/fake.c), restricted to what fake.c
relies on — with `O_CREAT` it creates a host regular file at the path
when absent, without `O_CREAT` an absent file is *not found*, and an
existing file is opened unchanged. -/
def realfs_open (p : Path) (creat : Bool) (host : HostFS) : Except Int HostFS :=
  match lookupKV host p with
  | some _ => Except.ok host
  | none => if creat then Except.ok ((p, ([] : List Nat)) :: host) else Except.error _ENOENT

/-- `fakefs_open`: host open first (mode 0666); on `O_CREAT`, when no
Path record exists, create one from the requested mode and the
caller's effective credentials; a still-missing record means the host
file is an orphan and the open returns *not found*. The `Nat` in the
result is the descriptor's `fake_inode`. -/
def fakefs_open (p : Path) (creat : Bool) (mode euid egid : Nat)
    (host : HostFS) (ms : MetaStore) :
    Option (Except Int Nat × HostFS × MetaStore) :=
  match realfs_open p creat host with
  | Except.error e => some (Except.error e, host, ms)
  | Except.ok host' =>
    let ino := path_get_inode ms p
    if creat ∧ ino = 0 then
      match path_create ms p { mode := mode ||| S_IFREG, uid := euid, gid := egid, rdev := 0 } with
      | none => none
      | some ms' =>
        let ino' := path_get_inode ms' p
        if ino' = 0 then some (Except.error _ENOENT, host', ms')
        else some (Except.ok ino', host', ms')
    else
      if ino = 0 then some (Except.error _ENOENT, host', ms)
      else some (Except.ok ino, host', ms)

/-- `fakefs_link`: host link first; on failure roll back and return the
error, otherwise `path_link`. -/
def fakefs_link (hostErr : Int) (src dst : Path) (ms : MetaStore) :
    Option (Int × MetaStore) :=
  if hostErr < 0 then some (hostErr, ms)
  else
    match path_link ms src dst with
    | none => none
    | some ms' => some (0, ms')

/-- `fakefs_unlink`: host unlink first; on failure roll back and return
the error, otherwise `path_unlink`. -/
def fakefs_unlink (hostErr : Int) (p : Path) (ms : MetaStore) : Int × MetaStore :=
  if hostErr < 0 then (hostErr, ms) else (0, path_unlink ms p)

/-- `fakefs_rmdir`: host rmdir first; on failure roll back and return
the error, otherwise `path_unlink`. -/
def fakefs_rmdir (hostErr : Int) (p : Path) (ms : MetaStore) : Int × MetaStore :=
  if hostErr < 0 then (hostErr, ms) else (0, path_unlink ms p)

/-- `fakefs_rename`: host rename first; on failure roll back and return
the error, otherwise `path_rename`. -/
def fakefs_rename (hostErr : Int) (src dst : Path) (ms : MetaStore) : Int × MetaStore :=
  if hostErr < 0 then (hostErr, ms) else (0, path_rename ms src dst)

/-- `fakefs_symlink`: creates the host file at `linkpath` itself with
`openat(root_fd, link, O_WRONLY|O_CREAT|O_EXCL, 0666)` — which fails
with *exists* when a host entry is already there — then writes the
literal bytes of `target` into it (`writeRes = some e` models a failed
`write`, after which the file is unlinked again and the store rolled
back), and records `S_IFLNK | 0777` with the caller's credentials. -/
def fakefs_symlink (writeRes : Option Int) (target link : Path) (euid egid : Nat)
    (host : HostFS) (ms : MetaStore) : Option (Int × HostFS × MetaStore) :=
  if (lookupKV host link).isSome then some (_EEXIST, host, ms)
  else
    match writeRes with
    | some e => some (e, host, ms)
    | none =>
      match path_create ms link { mode := S_IFLNK ||| 0o777, uid := euid, gid := egid, rdev := 0 } with
      | none => none
      | some ms' => some (0, (link, target) :: host, ms')

/-- The mode fake.c hands to the host in `fakefs_mknod`:
`real_mode = 0666`, then `|= S_IFREG` for char/block specials and
`|= mode & S_IFMT` otherwise. -/
def mknod_host_mode (mode : Nat) : Nat :=
  if S_ISBLK mode ∨ S_ISCHR mode then 0o666 ||| S_IFREG
  else 0o666 ||| (mode &&& S_IFMT)

/-- `fakefs_mknod`: host mknod (with `mknod_host_mode mode` and dev 0)
first; on failure roll back and return the error; otherwise record the
requested mode verbatim, the caller's credentials, and `rdev = dev`
for char/block specials, `0` otherwise. Returns the host result. -/
def fakefs_mknod (hostErr : Int) (p : Path) (mode dev euid egid : Nat)
    (ms : MetaStore) : Option (Int × MetaStore) :=
  if hostErr < 0 then some (hostErr, ms)
  else
    match path_create ms p
        { mode := mode, uid := euid, gid := egid
          rdev := if S_ISBLK mode ∨ S_ISCHR mode then dev else 0 } with
    | none => none
    | some ms' => some (hostErr, ms')

/-- `fakefs_mkdir`: host mkdir (mode 0777) first; on failure roll back
and return the error; otherwise record `mode | S_IFDIR` with the
caller's credentials. -/
def fakefs_mkdir (hostErr : Int) (p : Path) (mode euid egid : Nat)
    (ms : MetaStore) : Option (Int × MetaStore) :=
  if hostErr < 0 then some (hostErr, ms)
  else
    match path_create ms p { mode := mode ||| S_IFDIR, uid := euid, gid := egid, rdev := 0 } with
    | none => none
    | some ms' => some (0, ms')

/-- The foreign-OS-visible stat buffer: the five fields fake.c
overwrites plus the host fields that flow through untouched. -/
structure Statbuf where
  inode : Nat
  mode : Nat
  uid : Nat
  gid : Nat
  rdev : Nat
  size : Nat
  atime : Nat
  mtime : Nat
  ctime : Nat
  blocks : Nat
  nlink : Nat
deriving DecidableEq

/-- `fakefs_stat`: the metadata read must find the path (else *not
found*, without consulting the host); then the host stat result
(`hostRes`, covering both the buffer and the `follow_links` handling)
is projected: inode, mode, uid, gid, rdev come from the overlay, the
rest from the host. The store is never mutated. -/
def fakefs_stat (hostRes : Except Int Statbuf) (p : Path) (ms : MetaStore) :
    Except Int Statbuf :=
  match path_read_stat ms p with
  | none => Except.error _ENOENT
  | some (ino, s) =>
    match hostRes with
    | Except.error e => Except.error e
    | Except.ok buf => Except.ok
        { buf with inode := ino, mode := s.mode, uid := s.uid, gid := s.gid, rdev := s.rdev }

/-- `fakefs_fstat`: host fstat first, then a metadata read keyed by the
descriptor's overlay inode (fatal when missing), then projection. -/
def fakefs_fstat (hostRes : Except Int Statbuf) (fake_inode : Nat) (ms : MetaStore) :
    Option (Except Int Statbuf) :=
  match hostRes with
  | Except.error e => some (Except.error e)
  | Except.ok buf =>
    match inode_read_stat ms fake_inode with
    | none => none
    | some s => some (Except.ok
        { buf with inode := fake_inode, mode := s.mode, uid := s.uid, gid := s.gid, rdev := s.rdev })

/-- The attribute argument of setattr/fsetattr (`struct attr`). -/
inductive Attr
  | uid (n : Nat)
  | gid (n : Nat)
  | mode (m : Nat)
  | size (n : Nat)
deriving DecidableEq

def attrIsSize : Attr → Bool
  | Attr.size _ => true
  | _ => false

/-- `fake_stat_setattr`: mutate the single attribute; the mode case
keeps the `S_IFMT` bits and takes only the non-type bits of the
request (`(old & S_IFMT) | (new & ~S_IFMT)`). The switch has no size
case, so size leaves the record unchanged. -/
def fake_stat_setattr (s : IshStat) : Attr → IshStat
  | Attr.uid n => { s with uid := n }
  | Attr.gid n => { s with gid := n }
  | Attr.mode m => { s with mode := (s.mode &&& S_IFMT) ||| (m &&& dword_not S_IFMT) }
  | Attr.size _ => s

/-- `fakefs_setattr`: size is delegated to the host (`hostSizeRes`);
otherwise read the path's stat (else *not found*), mutate it, write it
back. -/
def fakefs_setattr (hostSizeRes : Int) (p : Path) (a : Attr) (ms : MetaStore) :
    Int × MetaStore :=
  if attrIsSize a then (hostSizeRes, ms)
  else
    match path_read_stat ms p with
    | none => (_ENOENT, ms)
    | some (ino, s) => (0, inode_write_stat ms ino (fake_stat_setattr s a))

/-- `fakefs_fsetattr`: same as setattr but keyed by the descriptor's
overlay inode (a missing stat row is fatal). -/
def fakefs_fsetattr (hostSizeRes : Int) (fake_inode : Nat) (a : Attr) (ms : MetaStore) :
    Option (Int × MetaStore) :=
  if attrIsSize a then some (hostSizeRes, ms)
  else
    match inode_read_stat ms fake_inode with
    | none => none
    | some s => some (0, inode_write_stat ms fake_inode (fake_stat_setattr s (a)))

/-- `file_readlink`: open the host file at the path and read up to
`bufsize` bytes of its contents (the regular-file fallback for
overlay symlinks). -/
def file_readlink (host : HostFS) (p : Path) (bufsize : Nat) : Except Int (List Nat) :=
  match lookupKV host p with
  | none => Except.error _ENOENT
  | some contents => Except.ok (contents.take bufsize)

/-- `fakefs_readlink`: the path must exist and its overlay mode must be
a symlink (else *not found* / *invalid argument*); then the host
readlink (`hostRes`); when the host reports *invalid argument* —
the overlay stores symlinks as regular host files — fall back to
reading the file's contents. -/
def fakefs_readlink (hostRes : Except Int (List Nat)) (p : Path) (bufsize : Nat)
    (host : HostFS) (ms : MetaStore) : Except Int (List Nat) :=
  match path_read_stat ms p with
  | none => Except.error _ENOENT
  | some (_, s) =>
    if ¬ S_ISLNK s.mode then Except.error _EINVAL
    else
      match hostRes with
      | Except.error e =>
        if e = _EINVAL then file_readlink host p bufsize else Except.error e
      | Except.ok bytes => Except.ok bytes

/-! ### Toolkit lemmas -/

theorem land_lor_distrib (a b c : Nat) : (a ||| b) &&& c = (a &&& c) ||| (b &&& c) := by
  apply Nat.eq_of_testBit_eq
  intro n
  simp [Nat.testBit_land, Nat.testBit_lor, Bool.and_or_distrib_right]

theorem land_self_eq (a : Nat) : a &&& a = a := by
  apply Nat.eq_of_testBit_eq
  intro n
  simp [Nat.testBit_land]

theorem land_zero_eq (a : Nat) : a &&& 0 = 0 := by
  apply Nat.eq_of_testBit_eq
  intro n
  simp [Nat.testBit_land]

theorem lor_zero_eq (a : Nat) : a ||| 0 = a := by
  apply Nat.eq_of_testBit_eq
  intro n
  simp [Nat.testBit_lor]

theorem zero_lor_eq (a : Nat) : 0 ||| a = a := by
  apply Nat.eq_of_testBit_eq
  intro n
  simp [Nat.testBit_lor]

theorem not_ifmt_land_ifmt : dword_not S_IFMT &&& S_IFMT = 0 := by decide

theorem ifmt_land_not_ifmt : S_IFMT &&& dword_not S_IFMT = 0 := by decide

theorem ifmt_land_ifmt : S_IFMT &&& S_IFMT = S_IFMT := by decide

/-- The mode written by `fake_stat_setattr` keeps the old type bits. -/
theorem setattr_mode_keeps_type (old m : Nat) :
    ((old &&& S_IFMT) ||| (m &&& dword_not S_IFMT)) &&& S_IFMT = old &&& S_IFMT := by
  rw [land_lor_distrib, Nat.land_assoc, Nat.land_assoc, not_ifmt_land_ifmt, ifmt_land_ifmt,
    land_zero_eq, lor_zero_eq]

/-- The mode written by `fake_stat_setattr` takes the request's
non-type bits. -/
theorem setattr_mode_sets_nontype (old m : Nat) :
    ((old &&& S_IFMT) ||| (m &&& dword_not S_IFMT)) &&& dword_not S_IFMT
      = m &&& dword_not S_IFMT := by
  rw [land_lor_distrib, Nat.land_assoc, Nat.land_assoc, ifmt_land_not_ifmt,
    land_self_eq, land_zero_eq, zero_lor_eq]

theorem lookupKV_filter_self {β : Type} (l : List (Path × β)) (p : Path) :
    lookupKV (l.filter fun e => !decide (e.1 = p)) p = none := by
  induction l with
  | nil => rfl
  | cons e rest ih =>
    by_cases h : e.1 = p
    · simpa [List.filter_cons, h] using ih
    · simpa [List.filter_cons, h, lookupKV, Ne.symm h] using ih

theorem lookupKV_filter_ne {β : Type} (l : List (Path × β)) (p q : Path) (hne : ¬ q = p) :
    lookupKV (l.filter fun e => !decide (e.1 = p)) q = lookupKV l q := by
  induction l with
  | nil => rfl
  | cons e rest ih =>
    by_cases h : e.1 = p
    · simp [List.filter_cons, h, lookupKV, hne, ih]
    · by_cases hq : q = e.1
      · simp [List.filter_cons, h, lookupKV, hq]
      · simp [List.filter_cons, h, lookupKV, hq, ih]

theorem lookupKV_update {α β : Type} [DecidableEq α] (l : List (α × β)) (i j : α) (s' : β) :
    lookupKV (l.map fun e => if e.1 = i then (e.1, s') else e) j
      = if j = i then (lookupKV l i).map (fun _ => s') else lookupKV l j := by
  induction l with
  | nil => cases hj : (j = i : Prop) |> Classical.em |>.symm <;> simp [lookupKV]
  | cons e rest ih =>
    simp only [List.map_cons]
    by_cases he : e.1 = i
    · by_cases hj : j = i
      · simp [lookupKV, he, hj]
      · simp [lookupKV, he, hj, ih]
    · have hie : ¬ i = e.1 := fun hc => he hc.symm
      by_cases hj : j = e.1
      · have hji : ¬ j = i := fun hc => he (hj ▸ hc)
        simp [lookupKV, he, hj, hji, hie]
      · simp [lookupKV, he, hj, hie, ih]

/-- Inversion of a successful `path_create`. -/
theorem path_create_eq_some {ms : MetaStore} {p : Path} {s : IshStat} {ms' : MetaStore}
    (h : path_create ms p s = some ms') :
    lookupKV ms.paths p = none
    ∧ ms' = { paths := (p, ms.nextInode) :: ms.paths
              stats := (ms.nextInode, s) :: ms.stats
              nextInode := ms.nextInode + 1 } := by
  unfold path_create at h
  cases hl : lookupKV ms.paths p with
  | some v => rw [hl] at h; simp at h
  | none => rw [hl] at h; simp at h; exact ⟨rfl, h.symm⟩

/-- Inversion of a successful `fakefs_symlink`. -/
theorem fakefs_symlink_eq_ok {t l : Path} {euid egid : Nat} {host : HostFS}
    {ms : MetaStore} {host' : HostFS} {ms' : MetaStore}
    (h : fakefs_symlink none t l euid egid host ms = some (0, host', ms')) :
    lookupKV host l = none
    ∧ lookupKV ms.paths l = none
    ∧ host' = (l, t) :: host
    ∧ ms' = { paths := (l, ms.nextInode) :: ms.paths
              stats := (ms.nextInode, ⟨S_IFLNK ||| 0o777, euid, egid, 0⟩) :: ms.stats
              nextInode := ms.nextInode + 1 } := by
  unfold fakefs_symlink at h
  by_cases hh : (lookupKV host l).isSome
  · rw [if_pos hh] at h
    simp [_EEXIST] at h
  · rw [if_neg hh] at h
    cases hpc : path_create ms l ⟨S_IFLNK ||| 0o777, euid, egid, 0⟩ with
    | none => rw [hpc] at h; simp at h
    | some ms2 =>
      rw [hpc] at h
      simp at h
      obtain ⟨hc, hm⟩ := path_create_eq_some hpc
      exact ⟨Option.not_isSome_iff_eq_none.mp hh, hc, h.1.symm, h.2 ▸ hm⟩

/-- Inversion of a successful `path_read_stat`. -/
theorem path_read_stat_eq_some {ms : MetaStore} {p : Path} {ino : Nat} {s : IshStat}
    (h : path_read_stat ms p = some (ino, s)) :
    lookupKV ms.paths p = some ino ∧ lookupKV ms.stats ino = some s := by
  cases h1 : lookupKV ms.paths p with
  | none => simp [path_read_stat, h1] at h
  | some ino2 =>
    cases h2 : lookupKV ms.stats ino2 with
    | none => simp [path_read_stat, h1, h2] at h
    | some s2 =>
      simp [path_read_stat, h1, h2] at h
      obtain ⟨hi, hs⟩ := h
      subst hi
      subst hs
      exact ⟨rfl, h2⟩

theorem islnk_symlink_mode : S_ISLNK (S_IFLNK ||| 0o777) := by decide

/-! ### Claims -/

/-- C1: for every mutating verb (link, unlink, rmdir, rename, symlink,
mknod, mkdir), a host-side failure (negative error code) is returned
verbatim and the metadata store is left exactly as it was: the
transaction rolls back and no Path or Stat record is created, deleted
or modified. The two symlink conjuncts are its host failure modes in
the source: the exclusive-create `openat` finding an existing entry
(which maps to the *exists* error), and a failed `write` (after which
the created host file is unlinked again). -/
theorem rollback_on_host_failure (hostErr wErr : Int) (src dst p target lnk : Path)
    (mode dev euid egid : Nat) (ms : MetaStore) (host : HostFS) (writeRes : Option Int)
    (h : hostErr < 0) :
    fakefs_link hostErr src dst ms = some (hostErr, ms)
    ∧ fakefs_unlink hostErr p ms = (hostErr, ms)
    ∧ fakefs_rmdir hostErr p ms = (hostErr, ms)
    ∧ fakefs_rename hostErr src dst ms = (hostErr, ms)
    ∧ fakefs_mknod hostErr p mode dev euid egid ms = some (hostErr, ms)
    ∧ fakefs_mkdir hostErr p mode euid egid ms = some (hostErr, ms)
    ∧ ((lookupKV host lnk).isSome →
        fakefs_symlink writeRes target lnk euid egid host ms = some (_EEXIST, host, ms))
    ∧ (lookupKV host lnk = none →
        fakefs_symlink (some wErr) target lnk euid egid host ms = some (wErr, host, ms)) := by
  refine ⟨?_, ?_, ?_, ?_, ?_, ?_, ?_, ?_⟩
  · simp [fakefs_link, h]
  · simp [fakefs_unlink, h]
  · simp [fakefs_rmdir, h]
  · simp [fakefs_rename, h]
  · simp [fakefs_mknod, h]
  · simp [fakefs_mkdir, h]
  · intro hx
    simp [fakefs_symlink, hx]
  · intro hx
    simp [fakefs_symlink, hx]

theorem rollback_on_host_failure_witness :
    fakefs_link (-3) [1] [2] ⟨[], [], 1⟩ = some (-3, (⟨[], [], 1⟩ : MetaStore))
    ∧ fakefs_symlink (some (-5)) [7] [8] 0 0 [] ⟨[], [], 1⟩
        = some (-5, ([] : HostFS), (⟨[], [], 1⟩ : MetaStore)) :=
  ⟨(rollback_on_host_failure (-3) (-5) [1] [2] [3] [7] [8] 0 0 0 0 ⟨[], [], 1⟩ [] none
      (by decide)).1,
   (rollback_on_host_failure (-3) (-5) [1] [2] [3] [7] [8] 0 0 0 0 ⟨[], [], 1⟩ [] none
      (by decide)).2.2.2.2.2.2.2 rfl⟩

/-- C5: `fakefs_stat` returns *not found* when the path has no Path
record (without consulting the host); when the Path record exists and
the host stat succeeds, the returned buffer takes inode, mode, uid,
gid, rdev from the overlay records (the inode being the overlay
inode) and every other field (size, times, blocks, nlink) verbatim
from the host buffer. -/
theorem stat_projection (p : Path) (ms : MetaStore) (hostRes : Except Int Statbuf) :
    (lookupKV ms.paths p = none → fakefs_stat hostRes p ms = Except.error _ENOENT)
    ∧ (∀ ino s buf, path_read_stat ms p = some (ino, s) → hostRes = Except.ok buf →
        fakefs_stat hostRes p ms = Except.ok
          { buf with inode := ino, mode := s.mode, uid := s.uid, gid := s.gid,
                     rdev := s.rdev }) := by
  constructor
  · intro h
    simp [fakefs_stat, path_read_stat, h]
  · intro ino s buf h1 h2
    simp [fakefs_stat, h1, h2]

theorem stat_projection_witness :
    fakefs_stat (Except.ok ⟨0, 0, 0, 0, 0, 9, 1, 2, 3, 4, 5⟩) [97]
        ⟨[([97], 1)], [(1, ⟨0o100644, 5, 6, 0⟩)], 2⟩
      = Except.ok ⟨1, 0o100644, 5, 6, 0, 9, 1, 2, 3, 4, 5⟩ :=
  (stat_projection [97] ⟨[([97], 1)], [(1, ⟨0o100644, 5, 6, 0⟩)], 2⟩
      (Except.ok ⟨0, 0, 0, 0, 0, 9, 1, 2, 3, 4, 5⟩)).2 1 ⟨0o100644, 5, 6, 0⟩
      ⟨0, 0, 0, 0, 0, 9, 1, 2, 3, 4, 5⟩ rfl rfl

/-- C7: after a successful unlink of `p`, a stat of `p` returns *not
found* (the Path record is gone), the Stat relation is untouched, and
a stat of any other path `q` — in particular a hard-link sibling —
returns exactly what it returned before the unlink. -/
theorem unlink_hides_path_keeps_stats (p q : Path) (ms : MetaStore)
    (hostRes hostRes' : Except Int Statbuf) (hne : ¬ q = p) :
    (fakefs_unlink 0 p ms).1 = 0
    ∧ ((fakefs_unlink 0 p ms).2).stats = ms.stats
    ∧ fakefs_stat hostRes p (fakefs_unlink 0 p ms).2 = Except.error _ENOENT
    ∧ fakefs_stat hostRes' q (fakefs_unlink 0 p ms).2 = fakefs_stat hostRes' q ms := by
  have h0 : fakefs_unlink 0 p ms = (0, path_unlink ms p) := by simp [fakefs_unlink]
  refine ⟨by rw [h0], by rw [h0]; rfl, ?_, ?_⟩
  · rw [h0]
    simp [fakefs_stat, path_read_stat, path_unlink, lookupKV_filter_self]
  · rw [h0]
    have heq : path_read_stat (path_unlink ms p) q = path_read_stat ms q := by
      simp [path_read_stat, path_unlink, lookupKV_filter_ne _ _ _ hne]
    simp [fakefs_stat, heq]

theorem unlink_hides_path_keeps_stats_witness :
    fakefs_stat (Except.ok ⟨0, 0, 0, 0, 0, 0, 0, 0, 0, 0, 0⟩) [97]
        (fakefs_unlink 0 [97] ⟨[([97], 1), ([98], 1)], [(1, ⟨0o100644, 5, 6, 0⟩)], 2⟩).2
      = Except.error _ENOENT
    ∧ fakefs_stat (Except.ok ⟨0, 0, 0, 0, 0, 0, 0, 0, 0, 0, 0⟩) [98]
        (fakefs_unlink 0 [97] ⟨[([97], 1), ([98], 1)], [(1, ⟨0o100644, 5, 6, 0⟩)], 2⟩).2
      = fakefs_stat (Except.ok ⟨0, 0, 0, 0, 0, 0, 0, 0, 0, 0, 0⟩) [98]
        ⟨[([97], 1), ([98], 1)], [(1, ⟨0o100644, 5, 6, 0⟩)], 2⟩ :=
  ⟨(unlink_hides_path_keeps_stats [97] [98] ⟨[([97], 1), ([98], 1)], [(1, ⟨0o100644, 5, 6, 0⟩)], 2⟩
      (Except.ok ⟨0, 0, 0, 0, 0, 0, 0, 0, 0, 0, 0⟩) (Except.ok ⟨0, 0, 0, 0, 0, 0, 0, 0, 0, 0, 0⟩)
      (by decide)).2.2.1,
   (unlink_hides_path_keeps_stats [97] [98] ⟨[([97], 1), ([98], 1)], [(1, ⟨0o100644, 5, 6, 0⟩)], 2⟩
      (Except.ok ⟨0, 0, 0, 0, 0, 0, 0, 0, 0, 0, 0⟩) (Except.ok ⟨0, 0, 0, 0, 0, 0, 0, 0, 0, 0, 0⟩)
      (by decide)).2.2.2⟩

/-- C10: symlink onto a linkpath where a host entry already exists
fails with the host's *exists* error (the host file is created with
`O_CREAT|O_EXCL`), and neither the host tree nor the metadata store is
touched. -/
theorem symlink_existing_host_entry (t l : Path) (euid egid : Nat) (writeRes : Option Int)
    (host : HostFS) (ms : MetaStore) (c : List Nat) (h : lookupKV host l = some c) :
    fakefs_symlink writeRes t l euid egid host ms = some (_EEXIST, host, ms) := by
  simp [fakefs_symlink, h]

theorem symlink_existing_host_entry_witness :
    fakefs_symlink none [120] [97] 0 0 [([97], [104, 105])] ⟨[], [], 1⟩
      = some (_EEXIST, [([97], [104, 105])], (⟨[], [], 1⟩ : MetaStore)) :=
  symlink_existing_host_entry [120] [97] 0 0 none [([97], [104, 105])] ⟨[], [], 1⟩
    [104, 105] rfl

/-- C2: round trip. After a successful `symlink(t, l)` the host entry
at `l` is a regular file whose contents are the bytes of `t`, and a
`readlink(l, bufsize)` with `|t| ≤ bufsize` — taking the regular-file
fallback because the host readlink reports *invalid argument* on a
regular file — returns exactly the bytes of `t`. -/
theorem symlink_readlink_roundtrip (t l : Path) (bufsize euid egid : Nat)
    (host host' : HostFS) (ms ms' : MetaStore)
    (hlen : t.length ≤ bufsize)
    (hsym : fakefs_symlink none t l euid egid host ms = some (0, host', ms')) :
    lookupKV host' l = some t
    ∧ fakefs_readlink (Except.error _EINVAL) l bufsize host' ms' = Except.ok t := by
  obtain ⟨hh, hp, hhost, hms⟩ := fakefs_symlink_eq_ok hsym
  subst hhost
  subst hms
  refine ⟨by simp [lookupKV], ?_⟩
  have hread : path_read_stat
      { paths := (l, ms.nextInode) :: ms.paths
        stats := (ms.nextInode, ⟨S_IFLNK ||| 0o777, euid, egid, 0⟩) :: ms.stats
        nextInode := ms.nextInode + 1 } l
      = some (ms.nextInode, ⟨S_IFLNK ||| 0o777, euid, egid, 0⟩) := by
    simp [path_read_stat, lookupKV]
  simp [fakefs_readlink, hread, islnk_symlink_mode, file_readlink, lookupKV,
    List.take_of_length_le hlen]

theorem symlink_readlink_roundtrip_witness :
    fakefs_symlink none [47, 120] [97] 0 0 [] ⟨[], [], 1⟩
      = some (0, [([97], [47, 120])], (⟨[([97], 1)], [(1, ⟨0o120777, 0, 0, 0⟩)], 2⟩ : MetaStore))
    ∧ fakefs_readlink (Except.error _EINVAL) [97] 64 [([97], [47, 120])]
        ⟨[([97], 1)], [(1, ⟨0o120777, 0, 0, 0⟩)], 2⟩
      = Except.ok [47, 120] :=
  ⟨rfl,
   (symlink_readlink_roundtrip [47, 120] [97] 64 0 0 [] [([97], [47, 120])]
      ⟨[], [], 1⟩ ⟨[([97], 1)], [(1, ⟨0o120777, 0, 0, 0⟩)], 2⟩ (by decide) rfl).2⟩

/-- C3: for a successful `mknod(p, mode, dev)`: when the requested
type is char or block special the host is asked to create a regular
file (`S_IFREG | 0666`, so the host sees a regular file) and the
overlay records `rdev = dev`; otherwise the host gets
`S_IFMT(mode) | 0666` and the overlay records `rdev = 0`. The overlay
Stat records the requested mode verbatim, and a subsequent stat
reports the requested type and device. -/
theorem mknod_modes (p : Path) (mode dev euid egid : Nat) (ms ms' : MetaStore) (buf : Statbuf)
    (hsucc : fakefs_mknod 0 p mode dev euid egid ms = some (0, ms')) :
    (S_ISBLK mode ∨ S_ISCHR mode →
      mknod_host_mode mode = S_IFREG ||| 0o666
      ∧ mknod_host_mode mode &&& S_IFMT = S_IFREG
      ∧ path_read_stat ms' p = some (ms.nextInode, ⟨mode, euid, egid, dev⟩))
    ∧ (¬ (S_ISBLK mode ∨ S_ISCHR mode) →
      mknod_host_mode mode = (mode &&& S_IFMT) ||| 0o666
      ∧ path_read_stat ms' p = some (ms.nextInode, ⟨mode, euid, egid, 0⟩))
    ∧ fakefs_stat (Except.ok buf) p ms' = Except.ok
        { buf with inode := ms.nextInode, mode := mode, uid := euid, gid := egid,
                   rdev := if S_ISBLK mode ∨ S_ISCHR mode then dev else 0 } := by
  unfold fakefs_mknod at hsucc
  rw [if_neg (by norm_num)] at hsucc
  cases hpc : path_create ms p
      ⟨mode, euid, egid, if S_ISBLK mode ∨ S_ISCHR mode then dev else 0⟩ with
  | none => rw [hpc] at hsucc; simp at hsucc
  | some ms2 =>
    rw [hpc] at hsucc
    simp at hsucc
    obtain ⟨hfresh, hms2⟩ := path_create_eq_some hpc
    have hms' : ms' = { paths := (p, ms.nextInode) :: ms.paths
                        stats := (ms.nextInode,
                            (⟨mode, euid, egid,
                              if S_ISBLK mode ∨ S_ISCHR mode then dev else 0⟩ : IshStat)) :: ms.stats
                        nextInode := ms.nextInode + 1 } := hsucc ▸ hms2
    subst hms'
    have hread : path_read_stat
        { paths := (p, ms.nextInode) :: ms.paths
          stats := (ms.nextInode,
              (⟨mode, euid, egid,
                if S_ISBLK mode ∨ S_ISCHR mode then dev else 0⟩ : IshStat)) :: ms.stats
          nextInode := ms.nextInode + 1 } p
        = some (ms.nextInode,
            ⟨mode, euid, egid, if S_ISBLK mode ∨ S_ISCHR mode then dev else 0⟩) := by
      simp [path_read_stat, lookupKV]
    refine ⟨?_, ?_, ?_⟩
    · intro h
      have hm : mknod_host_mode mode = 0o666 ||| S_IFREG := by
        unfold mknod_host_mode
        rw [if_pos h]
      refine ⟨by rw [hm]; decide, by rw [hm]; decide, ?_⟩
      rw [hread, if_pos h]
    · intro h
      have hm : mknod_host_mode mode = 0o666 ||| (mode &&& S_IFMT) := by
        unfold mknod_host_mode
        rw [if_neg h]
      refine ⟨by rw [hm, Nat.lor_comm], ?_⟩
      rw [hread, if_neg h]
    · simp [fakefs_stat, hread]

theorem mknod_modes_witness :
    mknod_host_mode 0o60600 = S_IFREG ||| 0o666
    ∧ mknod_host_mode 0o60600 &&& S_IFMT = S_IFREG
    ∧ path_read_stat ⟨[([97], 1)], [(1, ⟨0o60600, 1000, 1000, 1795⟩)], 2⟩ [97]
        = some (1, ⟨0o60600, 1000, 1000, 1795⟩) :=
  (mknod_modes [97] 0o60600 1795 1000 1000 ⟨[], [], 1⟩
      ⟨[([97], 1)], [(1, ⟨0o60600, 1000, 1000, 1795⟩)], 2⟩ ⟨0, 0, 0, 0, 0, 0, 0, 0, 0, 0, 0⟩
      rfl).1 (by decide)

/-- C9: every successful `mkdir`, `symlink` and `mknod` records the
calling task's effective uid and gid in the created overlay Stat. -/
theorem create_verbs_credentials (p l t : Path) (mode dev euid egid : Nat)
    (ms : MetaStore) (host : HostFS) :
    (∀ ms', fakefs_mkdir 0 p mode euid egid ms = some (0, ms') →
      ∃ i s, path_read_stat ms' p = some (i, s) ∧ s.uid = euid ∧ s.gid = egid)
    ∧ (∀ host' ms', fakefs_symlink none t l euid egid host ms = some (0, host', ms') →
      ∃ i s, path_read_stat ms' l = some (i, s) ∧ s.uid = euid ∧ s.gid = egid)
    ∧ (∀ ms', fakefs_mknod 0 p mode dev euid egid ms = some (0, ms') →
      ∃ i s, path_read_stat ms' p = some (i, s) ∧ s.uid = euid ∧ s.gid = egid) := by
  refine ⟨?_, ?_, ?_⟩
  · intro ms' h
    unfold fakefs_mkdir at h
    rw [if_neg (by norm_num)] at h
    cases hpc : path_create ms p ⟨mode ||| S_IFDIR, euid, egid, 0⟩ with
    | none => rw [hpc] at h; simp at h
    | some ms2 =>
      rw [hpc] at h
      simp at h
      obtain ⟨hfresh, hms2⟩ := path_create_eq_some hpc
      refine ⟨ms.nextInode, ⟨mode ||| S_IFDIR, euid, egid, 0⟩, ?_, rfl, rfl⟩
      rw [← h, hms2]
      simp [path_read_stat, lookupKV]
  · intro host' ms' h
    obtain ⟨hh, hp2, hhost, hms⟩ := fakefs_symlink_eq_ok h
    subst hms
    exact ⟨ms.nextInode, ⟨S_IFLNK ||| 0o777, euid, egid, 0⟩,
      by simp [path_read_stat, lookupKV], rfl, rfl⟩
  · intro ms' h
    unfold fakefs_mknod at h
    rw [if_neg (by norm_num)] at h
    cases hpc : path_create ms p
        ⟨mode, euid, egid, if S_ISBLK mode ∨ S_ISCHR mode then dev else 0⟩ with
    | none => rw [hpc] at h; simp at h
    | some ms2 =>
      rw [hpc] at h
      simp at h
      obtain ⟨hfresh, hms2⟩ := path_create_eq_some hpc
      refine ⟨ms.nextInode,
        ⟨mode, euid, egid, if S_ISBLK mode ∨ S_ISCHR mode then dev else 0⟩, ?_, rfl, rfl⟩
      rw [← h, hms2]
      simp [path_read_stat, lookupKV]

theorem create_verbs_credentials_witness :
    ∃ i s, path_read_stat ⟨[([100], 1)], [(1, ⟨0o40755, 7, 8, 0⟩)], 2⟩ [100]
      = some (i, s) ∧ s.uid = 7 ∧ s.gid = 8 :=
  (create_verbs_credentials [100] [108] [116] 0o755 0 7 8 ⟨[], [], 1⟩ []).1
    ⟨[([100], 1)], [(1, ⟨0o40755, 7, 8, 0⟩)], 2⟩ rfl

/-- C4: hard-link attribute sharing. When two paths `p` and `q`
reference the same overlay Stat record (as `link` sets up), a
successful `setattr(p, uid := U)` mutates that single shared Stat row,
and a stat through `q` observes `uid = U` (and `p`'s other overlay
attributes unchanged). -/
theorem setattr_uid_shared (p q : Path) (i U : Nat) (s : IshStat) (ms : MetaStore)
    (buf : Statbuf) (hostSizeRes : Int)
    (hp : lookupKV ms.paths p = some i) (hq : lookupKV ms.paths q = some i)
    (hs : lookupKV ms.stats i = some s) :
    fakefs_setattr hostSizeRes p (Attr.uid U) ms
      = (0, inode_write_stat ms i { s with uid := U })
    ∧ fakefs_stat (Except.ok buf) q (inode_write_stat ms i { s with uid := U })
      = Except.ok { buf with inode := i, mode := s.mode, uid := U, gid := s.gid,
                             rdev := s.rdev } := by
  have hprs : path_read_stat ms p = some (i, s) := by simp [path_read_stat, hp, hs]
  constructor
  · simp [fakefs_setattr, attrIsSize, hprs, fake_stat_setattr]
  · have hq2 : lookupKV (inode_write_stat ms i { s with uid := U }).paths q = some i := hq
    have hs2 : lookupKV (inode_write_stat ms i { s with uid := U }).stats i
        = some { s with uid := U } := by
      unfold inode_write_stat
      rw [lookupKV_update, if_pos rfl, hs]
      rfl
    have hprs2 : path_read_stat (inode_write_stat ms i { s with uid := U }) q
        = some (i, { s with uid := U }) := by
      simp [path_read_stat, hq2, hs2]
    simp [fakefs_stat, hprs2]

theorem setattr_uid_shared_witness :
    fakefs_stat (Except.ok ⟨0, 0, 0, 0, 0, 0, 0, 0, 0, 0, 0⟩) [98]
        (inode_write_stat ⟨[([97], 1), ([98], 1)], [(1, ⟨0o100644, 5, 6, 0⟩)], 2⟩ 1
          ⟨0o100644, 42, 6, 0⟩)
      = Except.ok ⟨1, 0o100644, 42, 6, 0, 0, 0, 0, 0, 0, 0⟩ :=
  (setattr_uid_shared [97] [98] 1 42 ⟨0o100644, 5, 6, 0⟩
      ⟨[([97], 1), ([98], 1)], [(1, ⟨0o100644, 5, 6, 0⟩)], 2⟩
      ⟨0, 0, 0, 0, 0, 0, 0, 0, 0, 0, 0⟩ 0 rfl rfl rfl).2

/-- C6: file type is immutable under attribute mutation. The mode
written by `fake_stat_setattr` keeps the stored `S_IFMT` bits and
replaces only the non-type bits with the request's non-type bits, and
both `fakefs_setattr` and `fakefs_fsetattr` with a mode attribute
leave the `S_IFMT` bits of every stored Stat row unchanged. -/
theorem setattr_mode_preserves_ifmt (p : Path) (fake_inode m : Nat) (hostSizeRes : Int)
    (ms : MetaStore) :
    (∀ s : IshStat,
      (fake_stat_setattr s (Attr.mode m)).mode &&& S_IFMT = s.mode &&& S_IFMT
      ∧ (fake_stat_setattr s (Attr.mode m)).mode &&& dword_not S_IFMT
          = m &&& dword_not S_IFMT)
    ∧ (∀ i, ((lookupKV (fakefs_setattr hostSizeRes p (Attr.mode m) ms).2.stats i).map
          fun s => s.mode &&& S_IFMT)
        = (lookupKV ms.stats i).map fun s => s.mode &&& S_IFMT)
    ∧ (∀ r ms', fakefs_fsetattr hostSizeRes fake_inode (Attr.mode m) ms = some (r, ms') →
        ∀ i, ((lookupKV ms'.stats i).map fun s => s.mode &&& S_IFMT)
          = (lookupKV ms.stats i).map fun s => s.mode &&& S_IFMT) := by
  refine ⟨?_, ?_, ?_⟩
  · intro s
    exact ⟨setattr_mode_keeps_type s.mode m, setattr_mode_sets_nontype s.mode m⟩
  · intro i
    cases hprs : path_read_stat ms p with
    | none => simp [fakefs_setattr, attrIsSize, hprs]
    | some pr =>
      obtain ⟨ino, s⟩ := pr
      obtain ⟨hp2, hs2⟩ := path_read_stat_eq_some hprs
      simp only [fakefs_setattr, attrIsSize, if_false, Bool.false_eq_true, hprs]
      unfold inode_write_stat
      rw [lookupKV_update]
      by_cases hi : i = ino
      · rw [if_pos hi, hi, hs2]
        simp [fake_stat_setattr, setattr_mode_keeps_type]
      · rw [if_neg hi]
  · intro r ms' h i
    unfold fakefs_fsetattr at h
    rw [if_neg (by simp [attrIsSize])] at h
    cases hirs : inode_read_stat ms fake_inode with
    | none => rw [hirs] at h; simp at h
    | some s =>
      rw [hirs] at h
      simp at h
      obtain ⟨hr, hms'⟩ := h
      rw [← hms']
      unfold inode_write_stat
      rw [lookupKV_update]
      have hirs2 : lookupKV ms.stats fake_inode = some s := hirs
      by_cases hi : i = fake_inode
      · rw [if_pos hi, hi, hirs2]
        simp [fake_stat_setattr, setattr_mode_keeps_type]
      · rw [if_neg hi]

theorem setattr_mode_preserves_ifmt_witness :
    ((lookupKV (fakefs_setattr 0 [97] (Attr.mode 0o7777)
          ⟨[([97], 1)], [(1, ⟨0o100644, 5, 6, 0⟩)], 2⟩).2.stats 1).map
        fun s => s.mode &&& S_IFMT)
      = (lookupKV [(1, (⟨0o100644, 5, 6, 0⟩ : IshStat))] 1).map fun s => s.mode &&& S_IFMT :=
  (setattr_mode_preserves_ifmt [97] 1 0o7777 0
    ⟨[([97], 1)], [(1, ⟨0o100644, 5, 6, 0⟩)], 2⟩).2.1 1

/-- C8 counterexample: with a pre-existing Path record for `p` (mode
`0o100755`), `open(p, O_CREAT, 0o644)` succeeds — the record is left
as is — and the subsequent stat reports mode `0o100755`, not
`0o644 | S_IFREG`. The first conjunct is the successful open, the
second the stat outcome, the third the failed claim equation. -/
theorem open_creat_mode_counterexample :
    fakefs_open [97] true 0o644 0 0 [([97], [])]
        ⟨[([97], 1)], [(1, ⟨0o100755, 0, 0, 0⟩)], 2⟩
      = some (Except.ok 1, [([97], [])],
          (⟨[([97], 1)], [(1, ⟨0o100755, 0, 0, 0⟩)], 2⟩ : MetaStore))
    ∧ fakefs_stat (Except.ok ⟨0, 0, 0, 0, 0, 0, 0, 0, 0, 0, 0⟩) [97]
        ⟨[([97], 1)], [(1, ⟨0o100755, 0, 0, 0⟩)], 2⟩
      = Except.ok ⟨1, 0o100755, 0, 0, 0, 0, 0, 0, 0, 0, 0⟩
    ∧ ¬ (0o100755 = 0o644 ||| S_IFREG) :=
  ⟨rfl, rfl, by decide⟩

/-- C8 (amended): after a successful `open(p, O_CREAT, m)` *where no
Path record existed for `p`*, the host file at `p` exists, the Path
record is created with `mode = m | S_IFREG`, `uid`/`gid` the caller's
effective credentials and `rdev = 0`, and `stat(p).mode = m | S_IFREG`
(the store's surrogate inodes are nonzero, whence the hypothesis on
the AUTOINCREMENT cursor). -/
theorem open_creat_fresh (p : Path) (m euid egid : Nat) (host : HostFS) (ms : MetaStore)
    (buf : Statbuf)
    (hfresh : lookupKV ms.paths p = none) (hnz : ¬ ms.nextInode = 0) :
    ∃ host',
      fakefs_open p true m euid egid host ms
        = some (Except.ok ms.nextInode, host',
            { paths := (p, ms.nextInode) :: ms.paths
              stats := (ms.nextInode, ⟨m ||| S_IFREG, euid, egid, 0⟩) :: ms.stats
              nextInode := ms.nextInode + 1 })
      ∧ (lookupKV host' p).isSome
      ∧ fakefs_stat (Except.ok buf) p
          { paths := (p, ms.nextInode) :: ms.paths
            stats := (ms.nextInode, ⟨m ||| S_IFREG, euid, egid, 0⟩) :: ms.stats
            nextInode := ms.nextInode + 1 }
        = Except.ok { buf with inode := ms.nextInode, mode := m ||| S_IFREG, uid := euid,
                               gid := egid, rdev := 0 } := by
  have hstat : fakefs_stat (Except.ok buf) p
      { paths := (p, ms.nextInode) :: ms.paths
        stats := (ms.nextInode, (⟨m ||| S_IFREG, euid, egid, 0⟩ : IshStat)) :: ms.stats
        nextInode := ms.nextInode + 1 }
      = Except.ok { buf with inode := ms.nextInode, mode := m ||| S_IFREG, uid := euid,
                             gid := egid, rdev := 0 } := by
    simp [fakefs_stat, path_read_stat, lookupKV]
  have hpc : path_create ms p ⟨m ||| S_IFREG, euid, egid, 0⟩
      = some { paths := (p, ms.nextInode) :: ms.paths
               stats := (ms.nextInode, (⟨m ||| S_IFREG, euid, egid, 0⟩ : IshStat)) :: ms.stats
               nextInode := ms.nextInode + 1 } := by
    unfold path_create
    rw [hfresh]
  have hro : ∃ host', realfs_open p true host = Except.ok host'
      ∧ (lookupKV host' p).isSome := by
    cases hh : lookupKV host p with
    | some c => exact ⟨host, by simp [realfs_open, hh], by simp [hh]⟩
    | none => exact ⟨(p, []) :: host, by simp [realfs_open, hh], by simp [lookupKV]⟩
  obtain ⟨host', hro1, hro2⟩ := hro
  refine ⟨host', ?_, hro2, hstat⟩
  unfold fakefs_open
  rw [hro1]
  simp [path_get_inode, hfresh, hpc, lookupKV, hnz]

theorem open_creat_fresh_witness :
    ∃ host',
      fakefs_open [97] true 0o644 3 4 [] ⟨[], [], 1⟩
        = some (Except.ok 1, host',
            (⟨[([97], 1)], [(1, ⟨0o644 ||| S_IFREG, 3, 4, 0⟩)], 2⟩ : MetaStore))
      ∧ (lookupKV host' [97]).isSome
      ∧ fakefs_stat (Except.ok ⟨0, 0, 0, 0, 0, 0, 0, 0, 0, 0, 0⟩) [97]
          ⟨[([97], 1)], [(1, ⟨0o644 ||| S_IFREG, 3, 4, 0⟩)], 2⟩
        = Except.ok ⟨1, 0o644 ||| S_IFREG, 3, 4, 0, 0, 0, 0, 0, 0, 0⟩ :=
  open_creat_fresh [97] 0o644 3 4 [] ⟨[], [], 1⟩ ⟨0, 0, 0, 0, 0, 0, 0, 0, 0, 0, 0⟩
    rfl (by decide)

end FakeFS
